import Mathlib

/-!
Verification of the jetton message codec layer of `tonlib-rs`.

The development shallowly embeds:
  * the generic `Option<T>` TLB combinator (`src/core/src/tlb_types/primitives/option.rs`),
  * the `JettonBurnMessage` codec (`src/core/src/message/jetton/burn.rs`),
  * the `JettonTransferNotificationMessage` codec
    (`src/core/src/message/jetton/transfer_notification.rs`).

The underlying cell primitive (`CellBuilder` / `CellParser` and their
store/load operations) is an external collaborator of this core; its
operations are modelled from the specification of the builder/parser
interface (fixed-width big-endian integers, length-prefixed minimal coins
encoding, the external address encoding with a canonical null form,
flag-bit optional child references, and the either inline-or-reference
layout), with the capacity bounds of the tree primitive (1023 data bits,
4 child references per node).
-/

namespace TonCodec

/-- A sequence of data bits, most significant bit first. -/
abbrev Bits := List Bool

/-- Modelled from the spec: the opaque unit of the underlying tree format,
holding a bounded bit region and zero or more child-node references. -/
inductive Cell where
  | mk (bits : Bits) (refs : List Cell)

def Cell.bits : Cell → Bits
  | .mk b _ => b

def Cell.refs : Cell → List Cell
  | .mk _ r => r

@[simp] theorem Cell.bits_mk (b : Bits) (r : List Cell) : (Cell.mk b r).bits = b := rfl

@[simp] theorem Cell.refs_mk (b : Bits) (r : List Cell) : (Cell.mk b r).refs = r := rfl

@[simp] theorem Cell.mk_bits_refs (c : Cell) : Cell.mk c.bits c.refs = c := by
  cases c
  rfl

mutual

def Cell.decEq : (c d : Cell) → Decidable (c = d)
  | .mk b1 r1, .mk b2 r2 =>
    if hb : b1 = b2 then
      match Cell.decEqList r1 r2 with
      | isFalse h => isFalse (by simp [hb, h])
      | isTrue hr => isTrue (by rw [hb, hr])
    else isFalse (by simp [hb])

def Cell.decEqList : (l1 l2 : List Cell) → Decidable (l1 = l2)
  | [], [] => isTrue rfl
  | [], _ :: _ => isFalse (by simp)
  | _ :: _, [] => isFalse (by simp)
  | c :: cs, d :: ds =>
    match Cell.decEq c d, Cell.decEqList cs ds with
    | isTrue h1, isTrue h2 => isTrue (by rw [h1, h2])
    | isFalse h1, _ => isFalse (by simp [h1])
    | _, isFalse h2 => isFalse (by simp [h2])

end

instance : DecidableEq Cell := Cell.decEq

instance {ε α : Type} [DecidableEq ε] [DecidableEq α] :
    DecidableEq (Except ε α) := fun x y =>
  match x, y with
  | .ok a, .ok b => if h : a = b then isTrue (by rw [h]) else isFalse (by simp [h])
  | .error a, .error b =>
    if h : a = b then isTrue (by rw [h]) else isFalse (by simp [h])
  | .ok _, .error _ => isFalse (by simp)
  | .error _, .ok _ => isFalse (by simp)

/-- Modelled from the spec: the error kinds of the cell layer
(capacity overflow on write, truncation/underflow on read, a value that
cannot be represented in its target encoding, malformed content, and
trailing unconsumed data detected by `ensure_empty`). -/
inductive TonCellError where
  | capacityExceeded
  | underflow
  | valueOutOfRange
  | malformed
  | trailingData
deriving DecidableEq, Repr

/-- Modelled from the spec: the message-level error type; a structural cell
error is lifted into it, and an opcode mismatch is the distinct
schema-mismatch kind produced by `verify_opcode`. -/
inductive TonMessageError where
  | cellError (e : TonCellError)
  | schemaMismatch
deriving DecidableEq, Repr

/-- Maximum number of data bits a cell may hold. -/
def maxBits : Nat := 1023

/-- Maximum number of child references a cell may hold. -/
def maxRefs : Nat := 4

/-- Big-endian bit representation of `n`, exactly `w` bits wide
(the value is reduced modulo `2 ^ w`, as a fixed-width store does). -/
def natToBits : Nat → Nat → Bits
  | 0, _ => []
  | w + 1, n => natToBits w (n / 2) ++ [n % 2 == 1]

/-- The value of a big-endian bit string. -/
def bitsToNat (bs : Bits) : Nat :=
  bs.foldl (fun a b => 2 * a + (if b then 1 else 0)) 0

/-- Minimal number of bytes needed to represent `n` (0 for `n = 0`),
computed with structural fuel so that it evaluates by kernel reduction. -/
def byteLenAux : Nat → Nat → Nat
  | 0, _ => 0
  | fuel + 1, n => if n = 0 then 0 else byteLenAux fuel (n / 256) + 1

/-- Minimal number of bytes needed to represent `n` (0 for `n = 0`). -/
def byteLen (n : Nat) : Nat := byteLenAux n n

theorem byteLenAux_zero (f : Nat) : byteLenAux f 0 = 0 := by
  cases f <;> simp [byteLenAux]

theorem byteLenAux_congr : ∀ (f g n : Nat), n ≤ f → n ≤ g →
    byteLenAux f n = byteLenAux g n := by
  intro f
  induction f with
  | zero =>
    intro g n hf hg
    have : n = 0 := Nat.le_zero.mp hf
    subst this
    rw [byteLenAux_zero, byteLenAux_zero]
  | succ f ih =>
    intro g n hf hg
    cases g with
    | zero =>
      have : n = 0 := Nat.le_zero.mp hg
      subst this
      rw [byteLenAux_zero, byteLenAux_zero]
    | succ g =>
      by_cases hn : n = 0
      · subst hn
        rw [byteLenAux_zero, byteLenAux_zero]
      · have hdiv : n / 256 < n := Nat.div_lt_self (Nat.pos_of_ne_zero hn) (by norm_num)
        simp only [byteLenAux, if_neg hn]
        rw [ih g (n / 256) (by omega) (by omega)]

/-- The defining recurrence of `byteLen`. -/
theorem byteLen_eq (n : Nat) : byteLen n = if n = 0 then 0 else byteLen (n / 256) + 1 := by
  by_cases hn : n = 0
  · subst hn
    simp [byteLen, byteLenAux_zero]
  · have hdiv : n / 256 < n := Nat.div_lt_self (Nat.pos_of_ne_zero hn) (by norm_num)
    rw [if_neg hn]
    cases n with
    | zero => exact absurd rfl hn
    | succ k =>
      show byteLenAux (k + 1) (k + 1) = _
      simp only [byteLenAux, if_neg hn]
      rw [byteLenAux_congr k ((k + 1) / 256) ((k + 1) / 256) (by omega) (by omega)]
      rfl

/-- The coins encoding of `n`: a 4-bit minimal byte count, then that many
bytes of big-endian magnitude. -/
def coinsBits (n : Nat) : Bits :=
  natToBits 4 (byteLen n) ++ natToBits (8 * byteLen n) n

/-- Modelled from the spec: the external chain-qualified account
identifier.  A null address has one canonical encoded form; a standard
address carries an 8-bit workchain and a 256-bit account hash. -/
inductive TonAddress where
  | null
  | std (workchain : Nat) (hash : Bits)
deriving DecidableEq, Repr

/-- The canonical external encoding of an address: `00` for the null
address, `100` (tag `10`, no anycast) then 8 workchain bits then the
256 hash bits for a standard address. -/
def addrBits : TonAddress → Bits
  | .null => [false, false]
  | .std wc hash => true :: false :: false :: (natToBits 8 wc ++ hash)

/-- Modelled from the spec: the explicit layout policy for either-typed
fields — `native` follows the schema literally (inline when the payload
fits the node, by child reference otherwise); `toRef` is the alternate
ecosystem convention that always stores by child reference. -/
inductive EitherCellLayout where
  | native
  | toRef
deriving DecidableEq, Repr

/-- Modelled from the spec: the builder capability — an open node
accumulating data bits and child references. -/
@[ext] structure CellBuilder where
  bits : Bits
  refs : List Cell
deriving DecidableEq

def CellBuilder.new : CellBuilder := ⟨[], []⟩

/-- Modelled from the spec: append raw bits, failing on bit-capacity
overflow. -/
def CellBuilder.store_bits (b : CellBuilder) (bs : Bits) :
    Except TonCellError CellBuilder :=
  if b.bits.length + bs.length ≤ maxBits then
    .ok ⟨b.bits ++ bs, b.refs⟩
  else
    .error .capacityExceeded

/-- Modelled from the spec: append a single bit. -/
def CellBuilder.store_bit (b : CellBuilder) (x : Bool) :
    Except TonCellError CellBuilder :=
  b.store_bits [x]

/-- Modelled from the spec: append a `w`-bit big-endian unsigned integer;
a value not representable in `w` bits is out of range. -/
def CellBuilder.store_uint (b : CellBuilder) (w : Nat) (n : Nat) :
    Except TonCellError CellBuilder :=
  if n < 2 ^ w then b.store_bits (natToBits w n) else .error .valueOutOfRange

/-- Modelled from the spec: `store_u32(bit_len, val)`. -/
def CellBuilder.store_u32 (b : CellBuilder) (w : Nat) (n : Nat) :
    Except TonCellError CellBuilder :=
  b.store_uint w n

/-- Modelled from the spec: `store_u64(bit_len, val)`. -/
def CellBuilder.store_u64 (b : CellBuilder) (w : Nat) (n : Nat) :
    Except TonCellError CellBuilder :=
  b.store_uint w n

/-- Modelled from the spec: the minimal-length coins encoding — a 4-bit
byte count (minimal, so at most 15 bytes fit) followed by that many bytes
of big-endian magnitude. -/
def CellBuilder.store_coins (b : CellBuilder) (n : Nat) :
    Except TonCellError CellBuilder :=
  if byteLen n < 16 then b.store_bits (coinsBits n)
  else .error .valueOutOfRange

/-- Modelled from the spec: append an address in the external address
encoding; a standard address must have an 8-bit workchain and a 256-bit
hash. -/
def CellBuilder.store_address (b : CellBuilder) (a : TonAddress) :
    Except TonCellError CellBuilder :=
  match a with
  | .null => b.store_bits (addrBits .null)
  | .std wc hash =>
    if wc < 256 ∧ hash.length = 256 then b.store_bits (addrBits (.std wc hash))
    else .error .valueOutOfRange

/-- Modelled from the spec: attach a child node, failing on reference
capacity overflow. -/
def CellBuilder.store_ref (b : CellBuilder) (c : Cell) :
    Except TonCellError CellBuilder :=
  if b.refs.length + 1 ≤ maxRefs then .ok ⟨b.bits, b.refs ++ [c]⟩
  else .error .capacityExceeded

/-- Modelled from the spec: one flag bit, then a child reference exactly
when the optional cell is present. -/
def CellBuilder.store_ref_cell_optional (b : CellBuilder) (o : Option Cell) :
    Except TonCellError CellBuilder :=
  match o with
  | none => b.store_bit false
  | some c =>
    match b.store_bit true with
    | .error e => .error e
    | .ok b => b.store_ref c

/-- Modelled from the spec: the either inline-or-reference write.  Under
the `native` layout the payload is written inline (flag bit `0`, then its
bits and references appended to the current node) when it fits the node's
remaining capacity, and by child reference (flag bit `1`) otherwise; the
alternate `toRef` layout always writes by child reference. -/
def CellBuilder.store_either_cell_or_cell_ref (b : CellBuilder) (c : Cell)
    (layout : EitherCellLayout) : Except TonCellError CellBuilder :=
  let asRef : Except TonCellError CellBuilder :=
    match b.store_bit true with
    | .error e => .error e
    | .ok b => b.store_ref c
  match layout with
  | .native =>
    if b.bits.length + 1 + c.bits.length ≤ maxBits ∧
        b.refs.length + c.refs.length ≤ maxRefs then
      .ok ⟨b.bits ++ [false] ++ c.bits, b.refs ++ c.refs⟩
    else asRef
  | .toRef => asRef

/-- Sealing the builder into an immutable node. -/
def CellBuilder.toCell (b : CellBuilder) : Cell := ⟨b.bits, b.refs⟩

/-- Modelled from the spec: the parser capability — a cursor over the not
yet consumed bits and child references of a node. -/
@[ext] structure CellParser where
  bits : Bits
  refs : List Cell
deriving DecidableEq

/-- Opening a parser over a node. -/
def Cell.parser (c : Cell) : CellParser := ⟨c.bits, c.refs⟩

/-- Modelled from the spec: read a single bit, failing on underflow. -/
def load_bit (p : CellParser) : Except TonCellError (Bool × CellParser) :=
  match p.bits with
  | [] => .error .underflow
  | b :: rest => .ok (b, ⟨rest, p.refs⟩)

/-- Modelled from the spec: read `n` raw bits, failing on underflow. -/
def load_bits (n : Nat) (p : CellParser) :
    Except TonCellError (Bits × CellParser) :=
  if n ≤ p.bits.length then .ok (p.bits.take n, ⟨p.bits.drop n, p.refs⟩)
  else .error .underflow

/-- Modelled from the spec: read a `w`-bit big-endian unsigned integer. -/
def load_uint (w : Nat) (p : CellParser) :
    Except TonCellError (Nat × CellParser) :=
  match load_bits w p with
  | .error e => .error e
  | .ok (bs, p) => .ok (bitsToNat bs, p)

/-- Modelled from the spec: `load_u32(bit_len)`. -/
def load_u32 (w : Nat) (p : CellParser) :
    Except TonCellError (Nat × CellParser) :=
  load_uint w p

/-- Modelled from the spec: `load_u64(bit_len)`. -/
def load_u64 (w : Nat) (p : CellParser) :
    Except TonCellError (Nat × CellParser) :=
  load_uint w p

/-- Modelled from the spec: read a coins-encoded integer — a 4-bit byte
count then that many bytes of big-endian magnitude. -/
def load_coins (p : CellParser) : Except TonCellError (Nat × CellParser) :=
  match load_uint 4 p with
  | .error e => .error e
  | .ok (len, p) => load_uint (8 * len) p

/-- Modelled from the spec: read an address in the external address
encoding; tags other than null (`00`) and standard-without-anycast
(`10`, anycast bit `0`) are malformed for this model. -/
def load_address (p : CellParser) : Except TonCellError (TonAddress × CellParser) :=
  match load_bits 2 p with
  | .error e => .error e
  | .ok (tag, p) =>
    if tag = [false, false] then .ok (.null, p)
    else if tag = [true, false] then
      match load_bit p with
      | .error e => .error e
      | .ok (anycast, p) =>
        if anycast then .error .malformed
        else
          match load_bits 8 p with
          | .error e => .error e
          | .ok (wcBits, p) =>
            match load_bits 256 p with
            | .error e => .error e
            | .ok (hash, p) => .ok (.std (bitsToNat wcBits) hash, p)
    else .error .malformed

/-- Modelled from the spec: consume the next child reference, failing on
underflow. -/
def load_ref (p : CellParser) : Except TonCellError (Cell × CellParser) :=
  match p.refs with
  | [] => .error .underflow
  | r :: rest => .ok (r, ⟨p.bits, rest⟩)

/-- Modelled from the spec: one flag bit, then a child reference exactly
when the flag is `1`. -/
def load_maybe_cell_ref (p : CellParser) :
    Except TonCellError (Option Cell × CellParser) :=
  match load_bit p with
  | .error e => .error e
  | .ok (flag, p) =>
    if flag then
      match load_ref p with
      | .error e => .error e
      | .ok (c, p) => .ok (some c, p)
    else .ok (none, p)

/-- Modelled from the spec: the either inline-or-reference read — flag
bit `1` consumes the next child reference; flag bit `0` rebuilds the
payload cell from every remaining bit and child reference of the node. -/
def load_either_cell_or_cell_ref (p : CellParser) :
    Except TonCellError (Cell × CellParser) :=
  match load_bit p with
  | .error e => .error e
  | .ok (flag, p) =>
    if flag then load_ref p
    else .ok (⟨p.bits, p.refs⟩, ⟨[], []⟩)

/-- Modelled from the spec: assert that no bits and no child references
remain unread; trailing data is a decode error. -/
def ensure_empty (p : CellParser) : Except TonCellError (Unit × CellParser) :=
  if p.bits = [] ∧ p.refs = [] then .ok ((), p) else .error .trailingData

/-- The read/write capability of a TLB payload type (the `TLBObject`
trait bound of the generic combinators): `read` consumes the value's
encoding from a parser, `write` appends it to a builder.  `store_tlb`
and `load_tlb` write and read the payload's encoding at the current
position of the same node, as the combinator's own layout test fixes
(a stored `Some` value's bits sit between the two flag bits of the
test's single cell). -/
structure TLB (α : Type) where
  read : CellParser → Except TonCellError (α × CellParser)
  write : α → CellBuilder → Except TonCellError CellBuilder

/-- `impl TLBObject for Option<T>`
(`src/core/src/tlb_types/primitives/option.rs`): read one flag bit,
`0` is `None`, `1` is `Some` of `load_tlb`; write `None` as a `0` bit and
`Some v` as a `1` bit followed by `store_tlb(v)`. -/
def TLB.option {α : Type} (t : TLB α) : TLB (Option α) where
  read p :=
    match load_bit p with
    | .error e => .error e
    | .ok (false, p) => .ok (none, p)
    | .ok (true, p) =>
      match t.read p with
      | .error e => .error e
      | .ok (v, p) => .ok (some v, p)
  write o b :=
    match o with
    | none => b.store_bit false
    | some v =>
      match b.store_bit true with
      | .error e => .error e
      | .ok b => t.write v b

/-- A correct read/write pair: a successful write only appends bits and
references, and reading the appended encoding back — in front of any
continuation — returns exactly the written value and leaves the
continuation untouched. -/
def TLB.Correct {α : Type} (t : TLB α) : Prop :=
  ∀ (v : α) (b b' : CellBuilder), t.write v b = .ok b' →
    b'.bits = b.bits ++ b'.bits.drop b.bits.length ∧
    b'.refs = b.refs ++ b'.refs.drop b.refs.length ∧
    ∀ (restBits : Bits) (restRefs : List Cell),
      t.read ⟨b'.bits.drop b.bits.length ++ restBits,
              b'.refs.drop b.refs.length ++ restRefs⟩ =
        .ok (v, ⟨restBits, restRefs⟩)

/-- A minimal concrete TLB payload type (a single bit), standing in for
the test payload types of the combinator's unit tests. -/
def boolTLB : TLB Bool where
  read := load_bit
  write v b := b.store_bit v

/-- Modelled from the spec: the opcode constant of the jetton burn
schema. -/
def JETTON_BURN : Nat := 0x595f07bc

/-- Modelled from the spec: the opcode constant of the jetton transfer
notification schema. -/
def JETTON_TRANSFER_NOTIFICATION : Nat := 0x7362d09c

/-- Modelled from the spec: the shared opcode verification helper of the
`HasOpcode` contract — an opcode different from the codec's expected
constant is the schema-mismatch decode error. -/
def verify_opcode (expected actual : Nat) : Except TonMessageError Unit :=
  if actual = expected then .ok () else .error .schemaMismatch

/-- `JettonBurnMessage` from `src/core/src/message/jetton/burn.rs`:
query id, burned amount, response destination address and optional
custom payload cell. -/
@[ext] structure JettonBurnMessage where
  query_id : Nat
  amount : Nat
  response_destination : TonAddress
  custom_payload : Option Cell
deriving DecidableEq

/-- `JettonBurnMessage::new`: only the amount is required; the query id
defaults to 0, the response destination to the null address, the custom
payload to absent. -/
def JettonBurnMessage.new (amount : Nat) : JettonBurnMessage :=
  { query_id := 0
    amount := amount
    response_destination := .null
    custom_payload := none }

/-- `JettonBurnMessage::with_response_destination`. -/
def JettonBurnMessage.with_response_destination (m : JettonBurnMessage)
    (response_destination : TonAddress) : JettonBurnMessage :=
  { m with response_destination := response_destination }

/-- `JettonBurnMessage::with_custom_payload`. -/
def JettonBurnMessage.with_custom_payload (m : JettonBurnMessage)
    (custom_payload : Cell) : JettonBurnMessage :=
  { m with custom_payload := some custom_payload }

/-- `JettonBurnMessage::build`: opcode (32 bits), query id (64 bits),
amount (coins), response destination (address), optional custom payload
(flag bit plus child reference), sealed into a cell. -/
def JettonBurnMessage.build (m : JettonBurnMessage) :
    Except TonMessageError Cell :=
  match (do
    let b := CellBuilder.new
    let b ← b.store_u32 32 JETTON_BURN
    let b ← b.store_u64 64 m.query_id
    let b ← b.store_coins m.amount
    let b ← b.store_address m.response_destination
    let b ← b.store_ref_cell_optional m.custom_payload
    pure b.toCell : Except TonCellError Cell) with
  | .error e => .error (.cellError e)
  | .ok c => .ok c

/-- The field-reading phase of `JettonBurnMessage::parse`: the opcode,
query id, amount, response destination and optional payload are read in
schema order; the read opcode and the assembled record are returned with
the parser as it stands after the last field. -/
def JettonBurnMessage.parseFields (p : CellParser) :
    Except TonCellError ((Nat × JettonBurnMessage) × CellParser) :=
  match load_u32 32 p with
  | .error e => .error e
  | .ok (opcode, p) =>
    match load_u64 64 p with
    | .error e => .error e
    | .ok (query_id, p) =>
      match load_coins p with
      | .error e => .error e
      | .ok (amount, p) =>
        match load_address p with
        | .error e => .error e
        | .ok (response_destination, p) =>
          match load_maybe_cell_ref p with
          | .error e => .error e
          | .ok (custom_payload, p) =>
            .ok ((opcode,
              { query_id := query_id
                amount := amount
                response_destination := response_destination
                custom_payload := custom_payload }), p)

/-- `JettonBurnMessage::parse`: read the fields in schema order, then
`ensure_empty`, then `verify_opcode` against `JETTON_BURN`. -/
def JettonBurnMessage.parse (c : Cell) :
    Except TonMessageError JettonBurnMessage :=
  match JettonBurnMessage.parseFields c.parser with
  | .error e => .error (.cellError e)
  | .ok ((opcode, result), p) =>
    match ensure_empty p with
    | .error e => .error (.cellError e)
    | .ok _ =>
      match verify_opcode JETTON_BURN opcode with
      | .error e => .error e
      | .ok _ => .ok result

/-- The empty cell, the value of `EMPTY_ARC_CELL`. -/
def EMPTY_CELL : Cell := ⟨[], []⟩

/-- `JettonTransferNotificationMessage` from
`src/core/src/message/jetton/transfer_notification.rs`: query id,
transferred amount, sender address, forward payload cell and the explicit
either-layout the payload is written with. -/
@[ext] structure JettonTransferNotificationMessage where
  query_id : Nat
  amount : Nat
  sender : TonAddress
  forward_payload : Cell
  forward_payload_layout : EitherCellLayout
deriving DecidableEq

/-- `JettonTransferNotificationMessage::new`: sender and amount are
required; the query id defaults to 0, the forward payload to the empty
cell, the layout to `Native`. -/
def JettonTransferNotificationMessage.new (sender : TonAddress) (amount : Nat) :
    JettonTransferNotificationMessage :=
  { query_id := 0
    amount := amount
    sender := sender
    forward_payload := EMPTY_CELL
    forward_payload_layout := .native }

/-- `JettonTransferNotificationMessage::with_forward_payload`. -/
def JettonTransferNotificationMessage.with_forward_payload
    (m : JettonTransferNotificationMessage) (forward_payload : Cell) :
    JettonTransferNotificationMessage :=
  { m with forward_payload := forward_payload }

/-- `JettonTransferNotificationMessage::set_either_cell_layout`. -/
def JettonTransferNotificationMessage.set_either_cell_layout
    (m : JettonTransferNotificationMessage) (layout : EitherCellLayout) :
    JettonTransferNotificationMessage :=
  { m with forward_payload_layout := layout }

/-- `JettonTransferNotificationMessage::build`: opcode (32 bits), query
id (64 bits), amount (coins), sender (address), forward payload (either
inline or by child reference, per the message's layout field), sealed
into a cell. -/
def JettonTransferNotificationMessage.build
    (m : JettonTransferNotificationMessage) : Except TonMessageError Cell :=
  match (do
    let b := CellBuilder.new
    let b ← b.store_u32 32 JETTON_TRANSFER_NOTIFICATION
    let b ← b.store_u64 64 m.query_id
    let b ← b.store_coins m.amount
    let b ← b.store_address m.sender
    let b ← b.store_either_cell_or_cell_ref m.forward_payload
      m.forward_payload_layout
    pure b.toCell : Except TonCellError Cell) with
  | .error e => .error (.cellError e)
  | .ok c => .ok c

/-- The field-reading phase of
`JettonTransferNotificationMessage::parse`; the decoded record's layout
field is always set to `Native`. -/
def JettonTransferNotificationMessage.parseFields (p : CellParser) :
    Except TonCellError ((Nat × JettonTransferNotificationMessage) × CellParser) :=
  match load_u32 32 p with
  | .error e => .error e
  | .ok (opcode, p) =>
    match load_u64 64 p with
    | .error e => .error e
    | .ok (query_id, p) =>
      match load_coins p with
      | .error e => .error e
      | .ok (amount, p) =>
        match load_address p with
        | .error e => .error e
        | .ok (sender, p) =>
          match load_either_cell_or_cell_ref p with
          | .error e => .error e
          | .ok (forward_payload, p) =>
            .ok ((opcode,
              { query_id := query_id
                amount := amount
                sender := sender
                forward_payload := forward_payload
                forward_payload_layout := .native }), p)

/-- `JettonTransferNotificationMessage::parse`: read the fields in schema
order, then `ensure_empty`, then `verify_opcode` against
`JETTON_TRANSFER_NOTIFICATION`. -/
def JettonTransferNotificationMessage.parse (c : Cell) :
    Except TonMessageError JettonTransferNotificationMessage :=
  match JettonTransferNotificationMessage.parseFields c.parser with
  | .error e => .error (.cellError e)
  | .ok ((opcode, result), p) =>
    match ensure_empty p with
    | .error e => .error (.cellError e)
    | .ok _ =>
      match verify_opcode JETTON_TRANSFER_NOTIFICATION opcode with
      | .error e => .error e
      | .ok _ => .ok result

/-- A syntactically valid address: the null address, or a standard
address with an 8-bit workchain and a 256-bit hash. -/
def TonAddress.isValid : TonAddress → Prop
  | .null => True
  | .std wc hash => wc < 256 ∧ hash.length = 256

/-! ### Arithmetic facts about the bit-string encodings -/

@[simp] theorem natToBits_length (w n : Nat) : (natToBits w n).length = w := by
  induction w generalizing n with
  | zero => rfl
  | succ w ih => simp [natToBits, ih]

theorem bitsToNat_go (xs : Bits) (a : Nat) :
    xs.foldl (fun a b => 2 * a + (if b then 1 else 0)) a =
      a * 2 ^ xs.length + xs.foldl (fun a b => 2 * a + (if b then 1 else 0)) 0 := by
  induction xs generalizing a with
  | nil => simp
  | cons x xs ih =>
    simp only [List.foldl_cons, List.length_cons]
    rw [ih (2 * a + (if x then 1 else 0)), ih (2 * 0 + (if x then 1 else 0))]
    ring

theorem bitsToNat_append (xs ys : Bits) :
    bitsToNat (xs ++ ys) = bitsToNat xs * 2 ^ ys.length + bitsToNat ys := by
  unfold bitsToNat
  rw [List.foldl_append, bitsToNat_go ys]

@[simp] theorem bitsToNat_nil : bitsToNat [] = 0 := rfl

@[simp] theorem bitsToNat_singleton (b : Bool) :
    bitsToNat [b] = if b then 1 else 0 := by
  unfold bitsToNat
  simp

theorem bitsToNat_natToBits (w n : Nat) :
    bitsToNat (natToBits w n) = n % 2 ^ w := by
  induction w generalizing n with
  | zero => simp [natToBits, Nat.mod_one]
  | succ w ih =>
    rw [natToBits, bitsToNat_append, ih]
    have hsplit : n % 2 ^ (w + 1) = n % 2 + 2 * (n / 2 % 2 ^ w) := by
      rw [pow_succ, Nat.mul_comm (2 ^ w) 2, Nat.mod_mul]
    have h2 : n % 2 = 0 ∨ n % 2 = 1 := Nat.mod_two_eq_zero_or_one n
    rcases h2 with h2 | h2 <;> simp [h2, hsplit] <;> omega

theorem byteLen_lt (n : Nat) : n < 256 ^ byteLen n := by
  induction n using Nat.strong_induction_on with
  | _ n ih =>
    rw [byteLen_eq]
    split
    · simp_all
    · rename_i h
      have hd := ih (n / 256) (Nat.div_lt_self (Nat.pos_of_ne_zero h) (by norm_num))
      have := Nat.div_add_mod n 256
      have : n < (n / 256 + 1) * 256 := by omega
      calc n < (n / 256 + 1) * 256 := this
        _ ≤ 256 ^ byteLen (n / 256) * 256 := by
            have : n / 256 + 1 ≤ 256 ^ byteLen (n / 256) := hd
            exact Nat.mul_le_mul_right _ this
        _ = 256 ^ (byteLen (n / 256) + 1) := by rw [pow_succ]

theorem lt_two_pow_mul_byteLen (n : Nat) : n < 2 ^ (8 * byteLen n) := by
  have := byteLen_lt n
  calc n < 256 ^ byteLen n := this
    _ = 2 ^ (8 * byteLen n) := by
        rw [pow_mul]
        norm_num

/-! ### Reading back what was stored -/

theorem load_bits_append {n : Nat} {xs : Bits} (h : xs.length = n)
    (rest : Bits) (refs : List Cell) :
    load_bits n ⟨xs ++ rest, refs⟩ = .ok (xs, ⟨rest, refs⟩) := by
  subst h
  simp [load_bits, List.take_left, List.drop_left]

theorem load_uint_append {w n : Nat} (h : n < 2 ^ w)
    (rest : Bits) (refs : List Cell) :
    load_uint w ⟨natToBits w n ++ rest, refs⟩ = .ok (n, ⟨rest, refs⟩) := by
  rw [load_uint, load_bits_append (natToBits_length w n) rest refs]
  simp [bitsToNat_natToBits, Nat.mod_eq_of_lt h]

theorem load_coins_append {n : Nat} (h : byteLen n < 16)
    (rest : Bits) (refs : List Cell) :
    load_coins ⟨coinsBits n ++ rest, refs⟩ = .ok (n, ⟨rest, refs⟩) := by
  rw [load_coins, coinsBits, List.append_assoc]
  rw [load_uint_append (by norm_num at h ⊢; omega) _ refs]
  exact load_uint_append (lt_two_pow_mul_byteLen n) rest refs

theorem load_bit_cons (a : Bool) (rest : Bits) (refs : List Cell) :
    load_bit ⟨a :: rest, refs⟩ = .ok (a, ⟨rest, refs⟩) := rfl

theorem load_bits_cons_two (a b : Bool) (rest : Bits) (refs : List Cell) :
    load_bits 2 ⟨a :: b :: rest, refs⟩ = .ok ([a, b], ⟨rest, refs⟩) := by
  rw [load_bits, if_pos (by simp)]
  rfl

theorem load_address_append {a : TonAddress} (h : a.isValid)
    (rest : Bits) (refs : List Cell) :
    load_address ⟨addrBits a ++ rest, refs⟩ = .ok (a, ⟨rest, refs⟩) := by
  cases a with
  | null =>
    show load_address ⟨false :: false :: rest, refs⟩ = _
    rw [load_address, load_bits_cons_two]
    simp
  | std wc hash =>
    obtain ⟨hwc, hlen⟩ := h
    have h8 : load_bits 8 ⟨natToBits 8 wc ++ (hash ++ rest), refs⟩ =
        .ok (natToBits 8 wc, ⟨hash ++ rest, refs⟩) :=
      load_bits_append (natToBits_length 8 wc) _ refs
    have h256 : load_bits 256 ⟨hash ++ rest, refs⟩ = .ok (hash, ⟨rest, refs⟩) :=
      load_bits_append hlen rest refs
    rw [load_address]
    simp only [addrBits, List.cons_append, List.append_assoc]
    rw [load_bits_cons_two]
    simp [load_bit_cons, h8, h256, bitsToNat_natToBits,
      Nat.mod_eq_of_lt (show wc < 2 ^ 8 by simpa using hwc)]
    exact hwc

theorem load_maybe_none (rest : Bits) (refs : List Cell) :
    load_maybe_cell_ref ⟨false :: rest, refs⟩ = .ok (none, ⟨rest, refs⟩) := by
  rfl

theorem load_maybe_some (rest : Bits) (r : Cell) (refs : List Cell) :
    load_maybe_cell_ref ⟨true :: rest, r :: refs⟩ = .ok (some r, ⟨rest, refs⟩) := by
  rfl

theorem load_either_inline (rest : Bits) (refs : List Cell) :
    load_either_cell_or_cell_ref ⟨false :: rest, refs⟩ =
      .ok (⟨rest, refs⟩, ⟨[], []⟩) := by
  rfl

theorem load_either_ref (rest : Bits) (r : Cell) (refs : List Cell) :
    load_either_cell_or_cell_ref ⟨true :: rest, r :: refs⟩ =
      .ok (r, ⟨rest, refs⟩) := by
  rfl

/-! ### What a successful build produces -/

/-- The flag bit of an optional child-reference field. -/
def maybeFlagBits : Option Cell → Bits
  | none => [false]
  | some _ => [true]

/-- The child references contributed by an optional child-reference
field. -/
def maybeRefs : Option Cell → List Cell
  | none => []
  | some c => [c]

@[simp] theorem coinsBits_length (n : Nat) :
    (coinsBits n).length = 4 + 8 * byteLen n := by
  simp [coinsBits]

theorem addrBits_length_le {a : TonAddress} (h : a.isValid) :
    (addrBits a).length ≤ 267 := by
  cases a with
  | null => simp [addrBits]
  | std wc hash =>
    obtain ⟨_, hlen⟩ := h
    simp [addrBits, hlen]

theorem store_bits_eq {b : CellBuilder} {bs : Bits}
    (h : b.bits.length + bs.length ≤ maxBits) :
    b.store_bits bs = .ok ⟨b.bits ++ bs, b.refs⟩ := by
  rw [CellBuilder.store_bits, if_pos h]

theorem store_uint_eq {b : CellBuilder} {w n : Nat} (hn : n < 2 ^ w)
    (h : b.bits.length + w ≤ maxBits) :
    b.store_uint w n = .ok ⟨b.bits ++ natToBits w n, b.refs⟩ := by
  rw [CellBuilder.store_uint, if_pos hn,
    store_bits_eq (by simpa [natToBits_length] using h)]

theorem store_coins_eq {b : CellBuilder} {n : Nat} (hn : byteLen n < 16)
    (h : b.bits.length + (coinsBits n).length ≤ maxBits) :
    b.store_coins n = .ok ⟨b.bits ++ coinsBits n, b.refs⟩ := by
  rw [CellBuilder.store_coins, if_pos hn, store_bits_eq h]

theorem store_address_eq {b : CellBuilder} {a : TonAddress} (ha : a.isValid)
    (h : b.bits.length + (addrBits a).length ≤ maxBits) :
    b.store_address a = .ok ⟨b.bits ++ addrBits a, b.refs⟩ := by
  cases a with
  | null => exact store_bits_eq h
  | std wc hash =>
    rw [CellBuilder.store_address,
      if_pos (show wc < 256 ∧ hash.length = 256 from ha), store_bits_eq h]

theorem store_bit_eq {b : CellBuilder} {x : Bool}
    (hbit : b.bits.length + 1 ≤ maxBits) :
    b.store_bit x = .ok ⟨b.bits ++ [x], b.refs⟩ := by
  rw [CellBuilder.store_bit]
  exact store_bits_eq (by simpa using hbit)

theorem store_ref_eq {b : CellBuilder} {c : Cell}
    (href : b.refs.length + 1 ≤ maxRefs) :
    b.store_ref c = .ok ⟨b.bits, b.refs ++ [c]⟩ := by
  rw [CellBuilder.store_ref, if_pos href]

theorem store_ref_cell_optional_eq {b : CellBuilder} {o : Option Cell}
    (hbit : b.bits.length + 1 ≤ maxBits)
    (href : b.refs.length + (maybeRefs o).length ≤ maxRefs) :
    b.store_ref_cell_optional o =
      .ok ⟨b.bits ++ maybeFlagBits o, b.refs ++ maybeRefs o⟩ := by
  cases o with
  | none =>
    rw [CellBuilder.store_ref_cell_optional, store_bit_eq hbit]
    simp [maybeFlagBits, maybeRefs]
  | some c =>
    have h2 : (⟨b.bits ++ [true], b.refs⟩ : CellBuilder).store_ref c =
        .ok ⟨b.bits ++ [true], b.refs ++ [c]⟩ :=
      store_ref_eq (by simpa [maybeRefs] using href)
    rw [CellBuilder.store_ref_cell_optional, store_bit_eq hbit]
    simp [h2, maybeFlagBits, maybeRefs]

theorem store_either_native_inline {b : CellBuilder} {c : Cell}
    (h : b.bits.length + 1 + c.bits.length ≤ maxBits ∧
      b.refs.length + c.refs.length ≤ maxRefs) :
    b.store_either_cell_or_cell_ref c .native =
      .ok ⟨b.bits ++ [false] ++ c.bits, b.refs ++ c.refs⟩ := by
  rw [CellBuilder.store_either_cell_or_cell_ref]
  exact if_pos h

theorem store_either_native_ref {b : CellBuilder} {c : Cell}
    (h : ¬(b.bits.length + 1 + c.bits.length ≤ maxBits ∧
      b.refs.length + c.refs.length ≤ maxRefs))
    (hbit : b.bits.length + 1 ≤ maxBits)
    (href : b.refs.length + 1 ≤ maxRefs) :
    b.store_either_cell_or_cell_ref c .native =
      .ok ⟨b.bits ++ [true], b.refs ++ [c]⟩ := by
  have h2 : (⟨b.bits ++ [true], b.refs⟩ : CellBuilder).store_ref c =
      .ok ⟨b.bits ++ [true], b.refs ++ [c]⟩ :=
    store_ref_eq (by simpa using href)
  rw [CellBuilder.store_either_cell_or_cell_ref]
  simp only [store_bit_eq hbit, h2]
  rw [if_neg h]

theorem store_either_toRef {b : CellBuilder} {c : Cell}
    (hbit : b.bits.length + 1 ≤ maxBits)
    (href : b.refs.length + 1 ≤ maxRefs) :
    b.store_either_cell_or_cell_ref c .toRef =
      .ok ⟨b.bits ++ [true], b.refs ++ [c]⟩ := by
  have h2 : (⟨b.bits ++ [true], b.refs⟩ : CellBuilder).store_ref c =
      .ok ⟨b.bits ++ [true], b.refs ++ [c]⟩ :=
    store_ref_eq (by simpa using href)
  rw [CellBuilder.store_either_cell_or_cell_ref]
  simp only [store_bit_eq hbit, h2]

theorem maybeRefs_length_le (o : Option Cell) : (maybeRefs o).length ≤ 1 := by
  cases o <;> simp [maybeRefs]

/-- The bit content of a successfully built burn message. -/
def burnBits (m : JettonBurnMessage) : Bits :=
  natToBits 32 JETTON_BURN ++ (natToBits 64 m.query_id ++ (coinsBits m.amount ++
    (addrBits m.response_destination ++ maybeFlagBits m.custom_payload)))

/-- The child references of a successfully built burn message. -/
def burnRefs (m : JettonBurnMessage) : List Cell := maybeRefs m.custom_payload

theorem JETTON_BURN_lt : JETTON_BURN < 2 ^ 32 := by norm_num [JETTON_BURN]

theorem JETTON_TRANSFER_NOTIFICATION_lt : JETTON_TRANSFER_NOTIFICATION < 2 ^ 32 := by
  norm_num [JETTON_TRANSFER_NOTIFICATION]

theorem burn_build_eq (m : JettonBurnMessage) (h1 : m.query_id < 2 ^ 64)
    (h2 : byteLen m.amount < 16) (h3 : m.response_destination.isValid) :
    m.build = .ok ⟨burnBits m, burnRefs m⟩ := by
  have laddr := addrBits_length_le h3
  have s1 : CellBuilder.new.store_u32 32 JETTON_BURN =
      .ok ⟨natToBits 32 JETTON_BURN, []⟩ := by
    rw [CellBuilder.store_u32,
      store_uint_eq JETTON_BURN_lt (by simp [CellBuilder.new, maxBits])]
    simp [CellBuilder.new]
  have s2 : (⟨natToBits 32 JETTON_BURN, []⟩ : CellBuilder).store_u64 64 m.query_id =
      .ok ⟨natToBits 32 JETTON_BURN ++ natToBits 64 m.query_id, []⟩ := by
    rw [CellBuilder.store_u64, store_uint_eq h1 (by simp [maxBits])]
  have s3 : (⟨natToBits 32 JETTON_BURN ++ natToBits 64 m.query_id, []⟩ :
        CellBuilder).store_coins m.amount =
      .ok ⟨natToBits 32 JETTON_BURN ++ natToBits 64 m.query_id ++
        coinsBits m.amount, []⟩ := by
    rw [store_coins_eq h2 (by simp [maxBits]; omega)]
  have s4 : (⟨natToBits 32 JETTON_BURN ++ natToBits 64 m.query_id ++
        coinsBits m.amount, []⟩ : CellBuilder).store_address
          m.response_destination =
      .ok ⟨natToBits 32 JETTON_BURN ++ natToBits 64 m.query_id ++
        coinsBits m.amount ++ addrBits m.response_destination, []⟩ := by
    rw [store_address_eq h3 (by simp [maxBits]; omega)]
  have s5 : (⟨natToBits 32 JETTON_BURN ++ natToBits 64 m.query_id ++
        coinsBits m.amount ++ addrBits m.response_destination, []⟩ :
          CellBuilder).store_ref_cell_optional m.custom_payload =
      .ok ⟨natToBits 32 JETTON_BURN ++ natToBits 64 m.query_id ++
        coinsBits m.amount ++ addrBits m.response_destination ++
          maybeFlagBits m.custom_payload, maybeRefs m.custom_payload⟩ := by
    have := maybeRefs_length_le m.custom_payload
    rw [store_ref_cell_optional_eq (by simp [maxBits]; omega)
      (by simp [maxRefs]; omega)]
    simp
  simp only [JettonBurnMessage.build, bind, Except.bind, s1, s2, s3, s4, s5,
    pure, Except.pure]
  simp [CellBuilder.toCell, burnBits, burnRefs, List.append_assoc]

theorem burn_build_err_qid (m : JettonBurnMessage)
    (h1 : ¬ m.query_id < 2 ^ 64) :
    m.build = .error (.cellError .valueOutOfRange) := by
  have s1 : CellBuilder.new.store_u32 32 JETTON_BURN =
      .ok ⟨natToBits 32 JETTON_BURN, []⟩ := by
    rw [CellBuilder.store_u32,
      store_uint_eq JETTON_BURN_lt (by simp [CellBuilder.new, maxBits])]
    simp [CellBuilder.new]
  have s2 : (⟨natToBits 32 JETTON_BURN, []⟩ : CellBuilder).store_u64 64 m.query_id =
      .error .valueOutOfRange := by
    rw [CellBuilder.store_u64, CellBuilder.store_uint, if_neg h1]
  simp only [JettonBurnMessage.build, bind, Except.bind, s1, s2]

theorem burn_build_err_amount (m : JettonBurnMessage)
    (h1 : m.query_id < 2 ^ 64) (h2 : ¬ byteLen m.amount < 16) :
    m.build = .error (.cellError .valueOutOfRange) := by
  have s1 : CellBuilder.new.store_u32 32 JETTON_BURN =
      .ok ⟨natToBits 32 JETTON_BURN, []⟩ := by
    rw [CellBuilder.store_u32,
      store_uint_eq JETTON_BURN_lt (by simp [CellBuilder.new, maxBits])]
    simp [CellBuilder.new]
  have s2 : (⟨natToBits 32 JETTON_BURN, []⟩ : CellBuilder).store_u64 64 m.query_id =
      .ok ⟨natToBits 32 JETTON_BURN ++ natToBits 64 m.query_id, []⟩ := by
    rw [CellBuilder.store_u64, store_uint_eq h1 (by simp [maxBits])]
  have s3 : (⟨natToBits 32 JETTON_BURN ++ natToBits 64 m.query_id, []⟩ :
        CellBuilder).store_coins m.amount = .error .valueOutOfRange := by
    rw [CellBuilder.store_coins, if_neg h2]
  simp only [JettonBurnMessage.build, bind, Except.bind, s1, s2, s3]

theorem burn_build_err_addr (m : JettonBurnMessage)
    (h1 : m.query_id < 2 ^ 64) (h2 : byteLen m.amount < 16)
    (h3 : ¬ m.response_destination.isValid) :
    m.build = .error (.cellError .valueOutOfRange) := by
  have s1 : CellBuilder.new.store_u32 32 JETTON_BURN =
      .ok ⟨natToBits 32 JETTON_BURN, []⟩ := by
    rw [CellBuilder.store_u32,
      store_uint_eq JETTON_BURN_lt (by simp [CellBuilder.new, maxBits])]
    simp [CellBuilder.new]
  have s2 : (⟨natToBits 32 JETTON_BURN, []⟩ : CellBuilder).store_u64 64 m.query_id =
      .ok ⟨natToBits 32 JETTON_BURN ++ natToBits 64 m.query_id, []⟩ := by
    rw [CellBuilder.store_u64, store_uint_eq h1 (by simp [maxBits])]
  have s3 : (⟨natToBits 32 JETTON_BURN ++ natToBits 64 m.query_id, []⟩ :
        CellBuilder).store_coins m.amount =
      .ok ⟨natToBits 32 JETTON_BURN ++ natToBits 64 m.query_id ++
        coinsBits m.amount, []⟩ := by
    rw [store_coins_eq h2 (by simp [maxBits]; omega)]
  have s4 : (⟨natToBits 32 JETTON_BURN ++ natToBits 64 m.query_id ++
        coinsBits m.amount, []⟩ : CellBuilder).store_address
          m.response_destination = .error .valueOutOfRange := by
    cases hm : m.response_destination with
    | null => exact absurd (by rw [hm] at h3 ⊢; trivial) h3
    | std wc hash =>
      rw [hm] at h3
      rw [CellBuilder.store_address,
        if_neg (show ¬(wc < 256 ∧ hash.length = 256) from h3)]
  simp only [JettonBurnMessage.build, bind, Except.bind, s1, s2, s3, s4]

theorem burn_build_spec {m : JettonBurnMessage} {c : Cell}
    (h : m.build = .ok c) :
    m.query_id < 2 ^ 64 ∧ byteLen m.amount < 16 ∧
      m.response_destination.isValid ∧ c = ⟨burnBits m, burnRefs m⟩ := by
  by_cases h1 : m.query_id < 2 ^ 64
  · by_cases h2 : byteLen m.amount < 16
    · by_cases h3 : m.response_destination.isValid
      · rw [burn_build_eq m h1 h2 h3] at h
        injection h with h
        exact ⟨h1, h2, h3, h.symm⟩
      · rw [burn_build_err_addr m h1 h2 h3] at h
        exact absurd h (by simp)
    · rw [burn_build_err_amount m h1 h2] at h
      exact absurd h (by simp)
  · rw [burn_build_err_qid m h1] at h
    exact absurd h (by simp)

theorem burn_parseFields_enc (qid amt : Nat) (a : TonAddress) (o : Option Cell)
    (h1 : qid < 2 ^ 64) (h2 : byteLen amt < 16) (h3 : a.isValid) :
    JettonBurnMessage.parseFields
        ⟨natToBits 32 JETTON_BURN ++ (natToBits 64 qid ++ (coinsBits amt ++
          (addrBits a ++ maybeFlagBits o))), maybeRefs o⟩ =
      .ok ((JETTON_BURN, ⟨qid, amt, a, o⟩), ⟨[], []⟩) := by
  rw [JettonBurnMessage.parseFields]
  simp only [load_u32, load_u64, load_uint_append JETTON_BURN_lt,
    load_uint_append h1, load_coins_append h2, load_address_append h3]
  cases o with
  | none => simp [maybeFlagBits, maybeRefs, load_maybe_none]
  | some pc => simp [maybeFlagBits, maybeRefs, load_maybe_some]

theorem burn_parse_encoding (m : JettonBurnMessage) (h1 : m.query_id < 2 ^ 64)
    (h2 : byteLen m.amount < 16) (h3 : m.response_destination.isValid) :
    JettonBurnMessage.parse ⟨burnBits m, burnRefs m⟩ = .ok m := by
  have hf := burn_parseFields_enc m.query_id m.amount m.response_destination
    m.custom_payload h1 h2 h3
  rw [JettonBurnMessage.parse]
  simp only [Cell.parser, Cell.bits_mk, Cell.refs_mk, burnBits, burnRefs, hf]
  simp [ensure_empty, verify_opcode]

/-- The fit condition under which the native layout writes the forward
payload inline: one flag bit plus the payload's bits still fit the node,
and its references fit the reference capacity. -/
def notifFits (m : JettonTransferNotificationMessage) : Prop :=
  97 + (coinsBits m.amount).length + (addrBits m.sender).length +
    m.forward_payload.bits.length ≤ maxBits ∧
  m.forward_payload.refs.length ≤ maxRefs

/-- The cell built for a transfer notification whose payload goes inline. -/
def notifInlineCell (m : JettonTransferNotificationMessage) : Cell :=
  ⟨natToBits 32 JETTON_TRANSFER_NOTIFICATION ++ (natToBits 64 m.query_id ++
    (coinsBits m.amount ++ (addrBits m.sender ++ (false :: m.forward_payload.bits)))),
   m.forward_payload.refs⟩

/-- The cell built for a transfer notification whose payload goes to a
child reference. -/
def notifRefCell (m : JettonTransferNotificationMessage) : Cell :=
  ⟨natToBits 32 JETTON_TRANSFER_NOTIFICATION ++ (natToBits 64 m.query_id ++
    (coinsBits m.amount ++ (addrBits m.sender ++ [true]))),
   [m.forward_payload]⟩

theorem notif_build_eq_inline (m : JettonTransferNotificationMessage)
    (h1 : m.query_id < 2 ^ 64) (h2 : byteLen m.amount < 16)
    (h3 : m.sender.isValid) (hlay : m.forward_payload_layout = .native)
    (hfit : notifFits m) :
    m.build = .ok (notifInlineCell m) := by
  have laddr := addrBits_length_le h3
  obtain ⟨hfb, hfr⟩ := hfit
  have s1 : CellBuilder.new.store_u32 32 JETTON_TRANSFER_NOTIFICATION =
      .ok ⟨natToBits 32 JETTON_TRANSFER_NOTIFICATION, []⟩ := by
    rw [CellBuilder.store_u32, store_uint_eq JETTON_TRANSFER_NOTIFICATION_lt
      (by simp [CellBuilder.new, maxBits])]
    simp [CellBuilder.new]
  have s2 : (⟨natToBits 32 JETTON_TRANSFER_NOTIFICATION, []⟩ :
        CellBuilder).store_u64 64 m.query_id =
      .ok ⟨natToBits 32 JETTON_TRANSFER_NOTIFICATION ++
        natToBits 64 m.query_id, []⟩ := by
    rw [CellBuilder.store_u64, store_uint_eq h1 (by simp [maxBits])]
  have s3 : (⟨natToBits 32 JETTON_TRANSFER_NOTIFICATION ++
        natToBits 64 m.query_id, []⟩ : CellBuilder).store_coins m.amount =
      .ok ⟨natToBits 32 JETTON_TRANSFER_NOTIFICATION ++ natToBits 64 m.query_id ++
        coinsBits m.amount, []⟩ := by
    rw [store_coins_eq h2 (by simp [maxBits]; omega)]
  have s4 : (⟨natToBits 32 JETTON_TRANSFER_NOTIFICATION ++ natToBits 64 m.query_id ++
        coinsBits m.amount, []⟩ : CellBuilder).store_address m.sender =
      .ok ⟨natToBits 32 JETTON_TRANSFER_NOTIFICATION ++ natToBits 64 m.query_id ++
        coinsBits m.amount ++ addrBits m.sender, []⟩ := by
    rw [store_address_eq h3 (by simp [maxBits]; omega)]
  have s5 : (⟨natToBits 32 JETTON_TRANSFER_NOTIFICATION ++ natToBits 64 m.query_id ++
        coinsBits m.amount ++ addrBits m.sender, []⟩ :
          CellBuilder).store_either_cell_or_cell_ref m.forward_payload
            m.forward_payload_layout =
      .ok ⟨natToBits 32 JETTON_TRANSFER_NOTIFICATION ++ natToBits 64 m.query_id ++
        coinsBits m.amount ++ addrBits m.sender ++ [false] ++
          m.forward_payload.bits, m.forward_payload.refs⟩ := by
    rw [hlay, store_either_native_inline
      ⟨by simp [maxBits] at hfb ⊢; omega, by simpa using hfr⟩]
    simp
  simp only [JettonTransferNotificationMessage.build, bind, Except.bind,
    s1, s2, s3, s4, s5, pure, Except.pure]
  simp [CellBuilder.toCell, notifInlineCell, List.append_assoc]

theorem notif_build_eq_ref (m : JettonTransferNotificationMessage)
    (h1 : m.query_id < 2 ^ 64) (h2 : byteLen m.amount < 16)
    (h3 : m.sender.isValid)
    (hcase : m.forward_payload_layout = .toRef ∨
      (m.forward_payload_layout = .native ∧ ¬ notifFits m)) :
    m.build = .ok (notifRefCell m) := by
  have laddr := addrBits_length_le h3
  have s1 : CellBuilder.new.store_u32 32 JETTON_TRANSFER_NOTIFICATION =
      .ok ⟨natToBits 32 JETTON_TRANSFER_NOTIFICATION, []⟩ := by
    rw [CellBuilder.store_u32, store_uint_eq JETTON_TRANSFER_NOTIFICATION_lt
      (by simp [CellBuilder.new, maxBits])]
    simp [CellBuilder.new]
  have s2 : (⟨natToBits 32 JETTON_TRANSFER_NOTIFICATION, []⟩ :
        CellBuilder).store_u64 64 m.query_id =
      .ok ⟨natToBits 32 JETTON_TRANSFER_NOTIFICATION ++
        natToBits 64 m.query_id, []⟩ := by
    rw [CellBuilder.store_u64, store_uint_eq h1 (by simp [maxBits])]
  have s3 : (⟨natToBits 32 JETTON_TRANSFER_NOTIFICATION ++
        natToBits 64 m.query_id, []⟩ : CellBuilder).store_coins m.amount =
      .ok ⟨natToBits 32 JETTON_TRANSFER_NOTIFICATION ++ natToBits 64 m.query_id ++
        coinsBits m.amount, []⟩ := by
    rw [store_coins_eq h2 (by simp [maxBits]; omega)]
  have s4 : (⟨natToBits 32 JETTON_TRANSFER_NOTIFICATION ++ natToBits 64 m.query_id ++
        coinsBits m.amount, []⟩ : CellBuilder).store_address m.sender =
      .ok ⟨natToBits 32 JETTON_TRANSFER_NOTIFICATION ++ natToBits 64 m.query_id ++
        coinsBits m.amount ++ addrBits m.sender, []⟩ := by
    rw [store_address_eq h3 (by simp [maxBits]; omega)]
  have s5 : (⟨natToBits 32 JETTON_TRANSFER_NOTIFICATION ++ natToBits 64 m.query_id ++
        coinsBits m.amount ++ addrBits m.sender, []⟩ :
          CellBuilder).store_either_cell_or_cell_ref m.forward_payload
            m.forward_payload_layout =
      .ok ⟨natToBits 32 JETTON_TRANSFER_NOTIFICATION ++ natToBits 64 m.query_id ++
        coinsBits m.amount ++ addrBits m.sender ++ [true],
          [m.forward_payload]⟩ := by
    rcases hcase with hlay | ⟨hlay, hfit⟩
    · rw [hlay, store_either_toRef (by simp [maxBits]; omega)
        (by simp [maxRefs])]
      simp
    · rw [hlay, store_either_native_ref (by
        intro hcon
        obtain ⟨hb, hr⟩ := hcon
        refine hfit ⟨?_, ?_⟩
        · simp [maxBits] at hb ⊢; omega
        · simpa using hr)
        (by simp [maxBits]; omega) (by simp [maxRefs])]
      simp
  simp only [JettonTransferNotificationMessage.build, bind, Except.bind,
    s1, s2, s3, s4, s5, pure, Except.pure]
  simp [CellBuilder.toCell, notifRefCell, List.append_assoc]

theorem notif_build_err_qid (m : JettonTransferNotificationMessage)
    (h1 : ¬ m.query_id < 2 ^ 64) :
    m.build = .error (.cellError .valueOutOfRange) := by
  have s1 : CellBuilder.new.store_u32 32 JETTON_TRANSFER_NOTIFICATION =
      .ok ⟨natToBits 32 JETTON_TRANSFER_NOTIFICATION, []⟩ := by
    rw [CellBuilder.store_u32, store_uint_eq JETTON_TRANSFER_NOTIFICATION_lt
      (by simp [CellBuilder.new, maxBits])]
    simp [CellBuilder.new]
  have s2 : (⟨natToBits 32 JETTON_TRANSFER_NOTIFICATION, []⟩ :
        CellBuilder).store_u64 64 m.query_id = .error .valueOutOfRange := by
    rw [CellBuilder.store_u64, CellBuilder.store_uint, if_neg h1]
  simp only [JettonTransferNotificationMessage.build, bind, Except.bind, s1, s2]

theorem notif_build_err_amount (m : JettonTransferNotificationMessage)
    (h1 : m.query_id < 2 ^ 64) (h2 : ¬ byteLen m.amount < 16) :
    m.build = .error (.cellError .valueOutOfRange) := by
  have s1 : CellBuilder.new.store_u32 32 JETTON_TRANSFER_NOTIFICATION =
      .ok ⟨natToBits 32 JETTON_TRANSFER_NOTIFICATION, []⟩ := by
    rw [CellBuilder.store_u32, store_uint_eq JETTON_TRANSFER_NOTIFICATION_lt
      (by simp [CellBuilder.new, maxBits])]
    simp [CellBuilder.new]
  have s2 : (⟨natToBits 32 JETTON_TRANSFER_NOTIFICATION, []⟩ :
        CellBuilder).store_u64 64 m.query_id =
      .ok ⟨natToBits 32 JETTON_TRANSFER_NOTIFICATION ++
        natToBits 64 m.query_id, []⟩ := by
    rw [CellBuilder.store_u64, store_uint_eq h1 (by simp [maxBits])]
  have s3 : (⟨natToBits 32 JETTON_TRANSFER_NOTIFICATION ++
        natToBits 64 m.query_id, []⟩ : CellBuilder).store_coins m.amount =
      .error .valueOutOfRange := by
    rw [CellBuilder.store_coins, if_neg h2]
  simp only [JettonTransferNotificationMessage.build, bind, Except.bind,
    s1, s2, s3]

theorem notif_build_err_addr (m : JettonTransferNotificationMessage)
    (h1 : m.query_id < 2 ^ 64) (h2 : byteLen m.amount < 16)
    (h3 : ¬ m.sender.isValid) :
    m.build = .error (.cellError .valueOutOfRange) := by
  have s1 : CellBuilder.new.store_u32 32 JETTON_TRANSFER_NOTIFICATION =
      .ok ⟨natToBits 32 JETTON_TRANSFER_NOTIFICATION, []⟩ := by
    rw [CellBuilder.store_u32, store_uint_eq JETTON_TRANSFER_NOTIFICATION_lt
      (by simp [CellBuilder.new, maxBits])]
    simp [CellBuilder.new]
  have s2 : (⟨natToBits 32 JETTON_TRANSFER_NOTIFICATION, []⟩ :
        CellBuilder).store_u64 64 m.query_id =
      .ok ⟨natToBits 32 JETTON_TRANSFER_NOTIFICATION ++
        natToBits 64 m.query_id, []⟩ := by
    rw [CellBuilder.store_u64, store_uint_eq h1 (by simp [maxBits])]
  have s3 : (⟨natToBits 32 JETTON_TRANSFER_NOTIFICATION ++
        natToBits 64 m.query_id, []⟩ : CellBuilder).store_coins m.amount =
      .ok ⟨natToBits 32 JETTON_TRANSFER_NOTIFICATION ++ natToBits 64 m.query_id ++
        coinsBits m.amount, []⟩ := by
    rw [store_coins_eq h2 (by simp [maxBits]; omega)]
  have s4 : (⟨natToBits 32 JETTON_TRANSFER_NOTIFICATION ++ natToBits 64 m.query_id ++
        coinsBits m.amount, []⟩ : CellBuilder).store_address m.sender =
      .error .valueOutOfRange := by
    cases hm : m.sender with
    | null => exact absurd (by rw [hm] at h3 ⊢; trivial) h3
    | std wc hash =>
      rw [hm] at h3
      rw [CellBuilder.store_address,
        if_neg (show ¬(wc < 256 ∧ hash.length = 256) from h3)]
  simp only [JettonTransferNotificationMessage.build, bind, Except.bind,
    s1, s2, s3, s4]

theorem notif_build_spec {m : JettonTransferNotificationMessage} {c : Cell}
    (h : m.build = .ok c) :
    m.query_id < 2 ^ 64 ∧ byteLen m.amount < 16 ∧ m.sender.isValid ∧
      ((m.forward_payload_layout = .native ∧ notifFits m ∧
          c = notifInlineCell m) ∨
        ((m.forward_payload_layout = .toRef ∨
            (m.forward_payload_layout = .native ∧ ¬ notifFits m)) ∧
          c = notifRefCell m)) := by
  by_cases h1 : m.query_id < 2 ^ 64
  · by_cases h2 : byteLen m.amount < 16
    · by_cases h3 : m.sender.isValid
      · refine ⟨h1, h2, h3, ?_⟩
        cases hlay : m.forward_payload_layout with
        | native =>
          by_cases hfit : notifFits m
          · rw [notif_build_eq_inline m h1 h2 h3 hlay hfit] at h
            injection h with h
            exact Or.inl ⟨rfl, hfit, h.symm⟩
          · rw [notif_build_eq_ref m h1 h2 h3 (Or.inr ⟨hlay, hfit⟩)] at h
            injection h with h
            exact Or.inr ⟨Or.inr ⟨rfl, hfit⟩, h.symm⟩
        | toRef =>
          rw [notif_build_eq_ref m h1 h2 h3 (Or.inl hlay)] at h
          injection h with h
          exact Or.inr ⟨Or.inl rfl, h.symm⟩
      · rw [notif_build_err_addr m h1 h2 h3] at h
        exact absurd h (by simp)
    · rw [notif_build_err_amount m h1 h2] at h
      exact absurd h (by simp)
  · rw [notif_build_err_qid m h1] at h
    exact absurd h (by simp)

theorem notif_parseFields_inline (qid amt : Nat) (a : TonAddress)
    (pb : Bits) (pr : List Cell)
    (h1 : qid < 2 ^ 64) (h2 : byteLen amt < 16) (h3 : a.isValid) :
    JettonTransferNotificationMessage.parseFields
        ⟨natToBits 32 JETTON_TRANSFER_NOTIFICATION ++ (natToBits 64 qid ++
          (coinsBits amt ++ (addrBits a ++ (false :: pb)))), pr⟩ =
      .ok ((JETTON_TRANSFER_NOTIFICATION, ⟨qid, amt, a, ⟨pb, pr⟩, .native⟩),
        ⟨[], []⟩) := by
  rw [JettonTransferNotificationMessage.parseFields]
  simp only [load_u32, load_u64, load_uint_append JETTON_TRANSFER_NOTIFICATION_lt,
    load_uint_append h1, load_coins_append h2, load_address_append h3,
    load_either_inline]

theorem notif_parseFields_ref (qid amt : Nat) (a : TonAddress) (pc : Cell)
    (h1 : qid < 2 ^ 64) (h2 : byteLen amt < 16) (h3 : a.isValid) :
    JettonTransferNotificationMessage.parseFields
        ⟨natToBits 32 JETTON_TRANSFER_NOTIFICATION ++ (natToBits 64 qid ++
          (coinsBits amt ++ (addrBits a ++ [true]))), [pc]⟩ =
      .ok ((JETTON_TRANSFER_NOTIFICATION, ⟨qid, amt, a, pc, .native⟩),
        ⟨[], []⟩) := by
  rw [JettonTransferNotificationMessage.parseFields]
  simp only [load_u32, load_u64, load_uint_append JETTON_TRANSFER_NOTIFICATION_lt,
    load_uint_append h1, load_coins_append h2, load_address_append h3]
  have he : load_either_cell_or_cell_ref ⟨[true], [pc]⟩ = .ok (pc, ⟨[], []⟩) :=
    load_either_ref [] pc []
  simp [he]

theorem notif_parse_inline_encoding (m : JettonTransferNotificationMessage)
    (h1 : m.query_id < 2 ^ 64) (h2 : byteLen m.amount < 16)
    (h3 : m.sender.isValid) (hlay : m.forward_payload_layout = .native) :
    JettonTransferNotificationMessage.parse (notifInlineCell m) = .ok m := by
  have hf := notif_parseFields_inline m.query_id m.amount m.sender
    m.forward_payload.bits m.forward_payload.refs h1 h2 h3
  have hm : (⟨m.query_id, m.amount, m.sender, m.forward_payload, .native⟩ :
      JettonTransferNotificationMessage) = m := by
    rw [← hlay]
  rw [JettonTransferNotificationMessage.parse]
  simp only [notifInlineCell, Cell.parser, Cell.bits_mk, Cell.refs_mk, hf]
  simp [ensure_empty, verify_opcode, hm]

theorem notif_parse_ref_encoding (m : JettonTransferNotificationMessage)
    (h1 : m.query_id < 2 ^ 64) (h2 : byteLen m.amount < 16)
    (h3 : m.sender.isValid) (hlay : m.forward_payload_layout = .native) :
    JettonTransferNotificationMessage.parse (notifRefCell m) = .ok m := by
  have hf := notif_parseFields_ref m.query_id m.amount m.sender
    m.forward_payload h1 h2 h3
  have hm : (⟨m.query_id, m.amount, m.sender, m.forward_payload, .native⟩ :
      JettonTransferNotificationMessage) = m := by
    cases m
    simp_all
  rw [JettonTransferNotificationMessage.parse]
  simp only [notifRefCell, Cell.parser, Cell.bits_mk, Cell.refs_mk, hf]
  simp [ensure_empty, verify_opcode, hm]

/-! ### Correctness of the generic `Option<T>` combinator -/

theorem store_bits_ok_shape {b : CellBuilder} {bs : Bits} {b1 : CellBuilder}
    (h : b.store_bits bs = .ok b1) : b1 = ⟨b.bits ++ bs, b.refs⟩ := by
  rw [CellBuilder.store_bits] at h
  split at h
  · injection h with h
    exact h.symm
  · exact absurd h (by simp)

theorem store_bit_ok_shape {b : CellBuilder} {x : Bool} {b1 : CellBuilder}
    (h : b.store_bit x = .ok b1) : b1 = ⟨b.bits ++ [x], b.refs⟩ :=
  store_bits_ok_shape h

theorem boolTLB_correct : boolTLB.Correct := by
  intro v b b' hw
  have hb : b' = ⟨b.bits ++ [v], b.refs⟩ := store_bit_ok_shape hw
  subst hb
  refine ⟨by simp, by simp, ?_⟩
  intro restBits restRefs
  simp [boolTLB, load_bit, List.drop_left]

theorem TLB.option_correct {α : Type} {t : TLB α} (ht : t.Correct) :
    (TLB.option t).Correct := by
  intro v b b' hw
  cases v with
  | none =>
    have hb : b' = ⟨b.bits ++ [false], b.refs⟩ := store_bit_ok_shape hw
    subst hb
    refine ⟨by simp, by simp, ?_⟩
    intro restBits restRefs
    simp [TLB.option, load_bit, List.drop_left]
  | some x =>
    have hw2 : (match b.store_bit true with
        | .error e => (.error e : Except TonCellError CellBuilder)
        | .ok b1 => t.write x b1) = .ok b' := hw
    cases hsb : b.store_bit true with
    | error e =>
      rw [hsb] at hw2
      exact absurd hw2 (by simp)
    | ok b1 =>
      rw [hsb] at hw2
      have hb1 : b1 = ⟨b.bits ++ [true], b.refs⟩ := store_bit_ok_shape hsb
      subst hb1
      obtain ⟨hbits, hrefs, hread⟩ := ht x _ b' hw2
      have hbits2 : b'.bits = b.bits ++ (true :: b'.bits.drop (b.bits.length + 1)) := by
        simpa [List.append_assoc] using hbits
      have hrefs2 : b'.refs = b.refs ++ b'.refs.drop b.refs.length := by
        simpa using hrefs
      have hdropb : b'.bits.drop b.bits.length =
          true :: b'.bits.drop (b.bits.length + 1) := by
        conv_lhs => rw [hbits2]
        simp [List.drop_left]
      refine ⟨?_, hrefs2, ?_⟩
      · rw [hdropb]
        exact hbits2
      · intro restBits restRefs
        rw [hdropb]
        have hread3 : t.read ⟨b'.bits.drop (b.bits.length + 1) ++ restBits,
            b'.refs.drop b.refs.length ++ restRefs⟩ = .ok (x, ⟨restBits, restRefs⟩) := by
          simpa using hread restBits restRefs
        simp [TLB.option, load_bit, hread3]

/-! ### Sample values for concrete instantiation -/

/-- A sample burn message: query id 7, amount 5, null destination, no
payload. -/
def sampleBurn : JettonBurnMessage := ⟨7, 5, .null, none⟩

/-- A sample transfer notification with the native layout. -/
def sampleNotif : JettonTransferNotificationMessage :=
  ⟨3, 2, .null, EMPTY_CELL, .native⟩

/-- A sample transfer notification carrying the alternate `toRef`
layout. -/
def sampleNotifToRef : JettonTransferNotificationMessage :=
  ⟨0, 0, .null, EMPTY_CELL, .toRef⟩

/-! ### Claims -/

/-- **C1** (amended): for every burn message value whose build succeeds,
`parse (build m)` returns exactly `m`; for transfer notifications the
same holds whenever `forward_payload_layout` is `Native` — as stated over
every syntactically valid value the claim fails, because parse always
resets the layout field to `Native` (see the counterexample). -/
theorem C1_roundtrip :
    (∀ (m : JettonBurnMessage) (c : Cell), m.build = .ok c →
      JettonBurnMessage.parse c = .ok m) ∧
    (∀ (m : JettonTransferNotificationMessage) (c : Cell),
      m.forward_payload_layout = .native → m.build = .ok c →
      JettonTransferNotificationMessage.parse c = .ok m) := by
  constructor
  · intro m c h
    obtain ⟨h1, h2, h3, hc⟩ := burn_build_spec h
    rw [hc]
    exact burn_parse_encoding m h1 h2 h3
  · intro m c hlay h
    obtain ⟨h1, h2, h3, hcase⟩ := notif_build_spec h
    rcases hcase with ⟨-, hfit, hc⟩ | ⟨-, hc⟩
    · rw [hc]
      exact notif_parse_inline_encoding m h1 h2 h3 hlay
    · rw [hc]
      exact notif_parse_ref_encoding m h1 h2 h3 hlay

set_option maxRecDepth 8000 in
/-- **C1** witness: the round-trip at the concrete sample messages. -/
theorem C1_roundtrip_witness :
    JettonBurnMessage.parse ⟨burnBits sampleBurn, burnRefs sampleBurn⟩ =
      .ok sampleBurn ∧
    JettonTransferNotificationMessage.parse (notifInlineCell sampleNotif) =
      .ok sampleNotif :=
  ⟨C1_roundtrip.1 sampleBurn _ rfl, C1_roundtrip.2 sampleNotif _ rfl rfl⟩

set_option maxRecDepth 8000 in
/-- **C1** counterexample: a transfer notification written with the
alternate `toRef` layout does not round-trip as stated — parse succeeds
but returns the message with the layout field reset to `Native`. -/
theorem C1_counterexample :
    (sampleNotifToRef.build >>= JettonTransferNotificationMessage.parse) =
      .ok ⟨0, 0, .null, EMPTY_CELL, .native⟩ ∧
    (sampleNotifToRef.build >>= JettonTransferNotificationMessage.parse) ≠
      .ok sampleNotifToRef := by
  have he : (sampleNotifToRef.build >>= JettonTransferNotificationMessage.parse) =
      .ok ⟨0, 0, .null, EMPTY_CELL, .native⟩ := rfl
  refine ⟨he, ?_⟩
  rw [he]
  intro h
  injection h with h
  have hl := congrArg JettonTransferNotificationMessage.forward_payload_layout h
  simp [sampleNotifToRef] at hl

/-- **C2** (amended): over any payload type with a correct read/write
pair, the combinator writes `Some x` as a `1` flag bit followed by T's
encoding **inline** in the current node's bit region (child references
appear only as T's own encoding adds them), and reading a `1` flag bit
decodes T from the current position of the same parser, without first
consuming a child reference. -/
theorem C2_some_inline {α : Type} (t : TLB α) (ht : t.Correct) (x : α)
    (b b' : CellBuilder) (hw : (TLB.option t).write (some x) b = .ok b') :
    b'.bits = b.bits ++ (true :: b'.bits.drop (b.bits.length + 1)) ∧
    b'.refs = b.refs ++ b'.refs.drop b.refs.length ∧
    ∀ (restBits : Bits) (restRefs : List Cell),
      t.read ⟨b'.bits.drop (b.bits.length + 1) ++ restBits,
        b'.refs.drop b.refs.length ++ restRefs⟩ =
          .ok (x, ⟨restBits, restRefs⟩) ∧
      (TLB.option t).read ⟨b'.bits.drop b.bits.length ++ restBits,
        b'.refs.drop b.refs.length ++ restRefs⟩ =
          .ok (some x, ⟨restBits, restRefs⟩) := by
  have hw2 : (match b.store_bit true with
      | .error e => (.error e : Except TonCellError CellBuilder)
      | .ok b1 => t.write x b1) = .ok b' := hw
  cases hsb : b.store_bit true with
  | error e =>
    rw [hsb] at hw2
    exact absurd hw2 (by simp)
  | ok b1 =>
    rw [hsb] at hw2
    have hb1 : b1 = ⟨b.bits ++ [true], b.refs⟩ := store_bit_ok_shape hsb
    subst hb1
    obtain ⟨hbits, hrefs, hread⟩ := ht x _ b' hw2
    have hbits2 : b'.bits = b.bits ++ (true :: b'.bits.drop (b.bits.length + 1)) := by
      simpa [List.append_assoc] using hbits
    have hrefs2 : b'.refs = b.refs ++ b'.refs.drop b.refs.length := by
      simpa using hrefs
    have hopt := (TLB.option_correct ht) (some x) b b' hw
    refine ⟨hbits2, hrefs2, ?_⟩
    intro restBits restRefs
    constructor
    · simpa using hread restBits restRefs
    · exact hopt.2.2 restBits restRefs

/-- **C2** witness: the amended statement instantiated at the single-bit
payload type, `Some true`, and a fresh builder. -/
theorem C2_some_inline_witness :
    boolTLB.read ⟨[true], []⟩ = .ok (true, ⟨[], []⟩) ∧
    (TLB.option boolTLB).read ⟨[true, true], []⟩ =
      .ok (some true, ⟨[], []⟩) := by
  have h := C2_some_inline boolTLB boolTLB_correct true CellBuilder.new
    ⟨[true, true], []⟩ rfl
  have h3 := h.2.2 [] []
  constructor
  · simpa [CellBuilder.new] using h3.1
  · simpa [CellBuilder.new] using h3.2

/-- **C2** counterexample: the combinator does **not** write the payload
into a new child node — writing `Some true` from a fresh builder yields a
node whose bit region holds the flag bit and the payload bit and whose
reference list is empty, and reading it back succeeds on a parser that
has no child references at all. -/
theorem C2_counterexample :
    (TLB.option boolTLB).write (some true) CellBuilder.new =
      .ok ⟨[true, true], []⟩ ∧
    (TLB.option boolTLB).read ⟨[true, true], []⟩ =
      .ok (some true, ⟨[], []⟩) :=
  ⟨rfl, rfl⟩

/-- **C3**: optional idempotence — for any correct payload read/write
pair the optional combinator is again a correct pair (so
`read (write v) = v` for `none` and every `some x`, including nested
`Option (Option T)`); writing `none` appends exactly one `0` bit and no
reference; reading a `0` flag yields absent consuming nothing further;
and reading back a fresh write recovers the value exactly. -/
theorem C3_option_idempotence {α : Type} (t : TLB α) (ht : t.Correct) :
    (TLB.option t).Correct ∧
    (TLB.option (TLB.option t)).Correct ∧
    (∀ b b' : CellBuilder, (TLB.option t).write none b = .ok b' →
      b' = ⟨b.bits ++ [false], b.refs⟩) ∧
    (∀ (restBits : Bits) (restRefs : List Cell),
      (TLB.option t).read ⟨false :: restBits, restRefs⟩ =
        .ok (none, ⟨restBits, restRefs⟩)) ∧
    (∀ (v : Option α) (b' : CellBuilder),
      (TLB.option t).write v CellBuilder.new = .ok b' →
      (TLB.option t).read ⟨b'.bits, b'.refs⟩ = .ok (v, ⟨[], []⟩)) := by
  have hc := TLB.option_correct ht
  refine ⟨hc, TLB.option_correct hc, ?_, ?_, ?_⟩
  · intro b b' hw
    exact store_bit_ok_shape hw
  · intro restBits restRefs
    simp [TLB.option, load_bit]
  · intro v b' hw
    have := (hc v _ _ hw).2.2 [] []
    simpa [CellBuilder.new] using this

/-- **C3** witness: idempotence at the single-bit payload type, including
the nested optional, plus the one-`0`-bit encoding of `none`. -/
theorem C3_option_idempotence_witness :
    (TLB.option (TLB.option boolTLB)).write (some (some true))
      CellBuilder.new = .ok ⟨[true, true, true], []⟩ ∧
    (TLB.option (TLB.option boolTLB)).read ⟨[true, true, true], []⟩ =
      .ok (some (some true), ⟨[], []⟩) ∧
    (TLB.option boolTLB).write none CellBuilder.new = .ok ⟨[false], []⟩ ∧
    (TLB.option boolTLB).read ⟨[false], []⟩ = .ok (none, ⟨[], []⟩) := by
  have h := C3_option_idempotence boolTLB boolTLB_correct
  have hn := C3_option_idempotence (TLB.option boolTLB) h.1
  refine ⟨rfl, ?_, rfl, ?_⟩
  · exact hn.2.2.2.2 (some (some true)) ⟨[true, true, true], []⟩ rfl
  · exact h.2.2.2.1 [] []

/-- **C4**: trailing-data rejection — if the field sequence of either
message kind decodes but the parser still holds unread bits or child
references, parse fails with the trailing-data error rather than
ignoring the extra data. -/
theorem C4_trailing_rejection :
    (∀ (c : Cell) (op : Nat) (m : JettonBurnMessage) (p : CellParser),
      JettonBurnMessage.parseFields c.parser = .ok ((op, m), p) →
      ¬(p.bits = [] ∧ p.refs = []) →
      JettonBurnMessage.parse c = .error (.cellError .trailingData)) ∧
    (∀ (c : Cell) (op : Nat) (m : JettonTransferNotificationMessage)
        (p : CellParser),
      JettonTransferNotificationMessage.parseFields c.parser = .ok ((op, m), p) →
      ¬(p.bits = [] ∧ p.refs = []) →
      JettonTransferNotificationMessage.parse c =
        .error (.cellError .trailingData)) := by
  constructor
  · intro c op m p hf hne
    rw [JettonBurnMessage.parse]
    simp [hf, ensure_empty, hne]
  · intro c op m p hf hne
    rw [JettonTransferNotificationMessage.parse]
    simp [hf, ensure_empty, hne]

set_option maxRecDepth 8000 in
/-- **C4** witness: a burn encoding with one extra trailing bit and a
transfer-notification encoding with one extra child reference are both
rejected with the trailing-data error. -/
theorem C4_trailing_rejection_witness :
    JettonBurnMessage.parse ⟨burnBits sampleBurn ++ [true], []⟩ =
      .error (.cellError .trailingData) ∧
    JettonTransferNotificationMessage.parse
        ⟨(notifRefCell sampleNotif).bits, [EMPTY_CELL, EMPTY_CELL]⟩ =
      .error (.cellError .trailingData) :=
  ⟨C4_trailing_rejection.1 _ JETTON_BURN sampleBurn ⟨[true], []⟩ rfl
      (by decide),
   C4_trailing_rejection.2 _ JETTON_TRANSFER_NOTIFICATION sampleNotif
      ⟨[], [EMPTY_CELL]⟩ rfl (by decide)⟩

/-- **C5**: opcode rejection — if the field sequence decodes with nothing
left over but the leading 32 bits are not the codec's opcode constant,
parse fails with the schema-mismatch error, which is a different error
kind from every structural cell error. -/
theorem C5_opcode_rejection :
    (∀ (c : Cell) (op : Nat) (m : JettonBurnMessage) (p : CellParser),
      JettonBurnMessage.parseFields c.parser = .ok ((op, m), p) →
      p.bits = [] → p.refs = [] → op ≠ JETTON_BURN →
      JettonBurnMessage.parse c = .error .schemaMismatch) ∧
    (∀ (c : Cell) (op : Nat) (m : JettonTransferNotificationMessage)
        (p : CellParser),
      JettonTransferNotificationMessage.parseFields c.parser = .ok ((op, m), p) →
      p.bits = [] → p.refs = [] → op ≠ JETTON_TRANSFER_NOTIFICATION →
      JettonTransferNotificationMessage.parse c = .error .schemaMismatch) ∧
    (∀ e : TonCellError,
      (TonMessageError.schemaMismatch : TonMessageError) ≠ .cellError e) := by
  refine ⟨?_, ?_, ?_⟩
  · intro c op m p hf hb hr hop
    rw [JettonBurnMessage.parse]
    simp [hf, ensure_empty, hb, hr, verify_opcode, hop]
  · intro c op m p hf hb hr hop
    rw [JettonTransferNotificationMessage.parse]
    simp [hf, ensure_empty, hb, hr, verify_opcode, hop]
  · intro e
    simp

set_option maxRecDepth 8000 in
/-- **C5** witness: the valid encoding of each message kind is rejected
with schema-mismatch by the other kind's codec. -/
theorem C5_opcode_rejection_witness :
    sampleNotif.build = .ok (notifInlineCell sampleNotif) ∧
    JettonBurnMessage.parse (notifInlineCell sampleNotif) =
      .error .schemaMismatch ∧
    sampleBurn.build = .ok ⟨burnBits sampleBurn, burnRefs sampleBurn⟩ ∧
    JettonTransferNotificationMessage.parse
        ⟨burnBits sampleBurn, burnRefs sampleBurn⟩ =
      .error .schemaMismatch :=
  ⟨rfl,
   C5_opcode_rejection.1 _ JETTON_TRANSFER_NOTIFICATION ⟨3, 2, .null, none⟩
      ⟨[], []⟩ rfl rfl rfl (by decide),
   rfl,
   C5_opcode_rejection.2.1 _ JETTON_BURN ⟨7, 5, .null, ⟨[], []⟩, .native⟩
      ⟨[], []⟩ rfl rfl rfl (by decide)⟩

/-- **C6**: field order — a successful build writes the opcode (32 bits,
`0x595f07bc` for burn, `0x7362d09c` for transfer notification), then the
query id (64 bits), then the amount (coins encoding), then the
kind-specific address, then the optional/either tail, in this order. -/
theorem C6_field_order :
    (∀ (m : JettonBurnMessage) (c : Cell), m.build = .ok c →
      c.bits = natToBits 32 0x595f07bc ++ (natToBits 64 m.query_id ++
        (coinsBits m.amount ++ (addrBits m.response_destination ++
          maybeFlagBits m.custom_payload))) ∧
      c.refs = maybeRefs m.custom_payload) ∧
    (∀ (m : JettonTransferNotificationMessage) (c : Cell), m.build = .ok c →
      ∃ tail : Bits,
        c.bits = natToBits 32 0x7362d09c ++ (natToBits 64 m.query_id ++
          (coinsBits m.amount ++ (addrBits m.sender ++ tail))) ∧
        ((tail = false :: m.forward_payload.bits ∧
            c.refs = m.forward_payload.refs) ∨
          (tail = [true] ∧ c.refs = [m.forward_payload]))) := by
  constructor
  · intro m c h
    obtain ⟨-, -, -, hc⟩ := burn_build_spec h
    subst hc
    exact ⟨by simp [burnBits, JETTON_BURN], by simp [burnRefs]⟩
  · intro m c h
    obtain ⟨-, -, -, hcase⟩ := notif_build_spec h
    rcases hcase with ⟨-, -, hc⟩ | ⟨-, hc⟩
    · subst hc
      exact ⟨false :: m.forward_payload.bits,
        by simp [notifInlineCell, JETTON_TRANSFER_NOTIFICATION],
        Or.inl ⟨rfl, by simp [notifInlineCell]⟩⟩
    · subst hc
      exact ⟨[true],
        by simp [notifRefCell, JETTON_TRANSFER_NOTIFICATION],
        Or.inr ⟨rfl, by simp [notifRefCell]⟩⟩

set_option maxRecDepth 8000 in
/-- **C6** witness: the field order at the concrete sample messages. -/
theorem C6_field_order_witness :
    ((⟨burnBits sampleBurn, burnRefs sampleBurn⟩ : Cell).bits =
        natToBits 32 0x595f07bc ++ (natToBits 64 sampleBurn.query_id ++
          (coinsBits sampleBurn.amount ++
            (addrBits sampleBurn.response_destination ++
              maybeFlagBits sampleBurn.custom_payload))) ∧
      (⟨burnBits sampleBurn, burnRefs sampleBurn⟩ : Cell).refs =
        maybeRefs sampleBurn.custom_payload) ∧
    (∃ tail : Bits,
      (notifInlineCell sampleNotif).bits =
        natToBits 32 0x7362d09c ++ (natToBits 64 sampleNotif.query_id ++
          (coinsBits sampleNotif.amount ++ (addrBits sampleNotif.sender ++ tail))) ∧
      ((tail = false :: sampleNotif.forward_payload.bits ∧
          (notifInlineCell sampleNotif).refs = sampleNotif.forward_payload.refs) ∨
        (tail = [true] ∧
          (notifInlineCell sampleNotif).refs = [sampleNotif.forward_payload]))) :=
  ⟨C6_field_order.1 sampleBurn _ rfl, C6_field_order.2 sampleNotif _ rfl⟩

/-- **C7**: the minimal constructors set the required fields from their
arguments and default everything else — zero query id, null address for
the defaulted address field, absent payload for burn, and the empty cell
payload with the `Native` layout for transfer notification. -/
theorem C7_constructor_defaults (a : Nat) (s : TonAddress) :
    (JettonBurnMessage.new a).query_id = 0 ∧
    (JettonBurnMessage.new a).amount = a ∧
    (JettonBurnMessage.new a).response_destination = .null ∧
    (JettonBurnMessage.new a).custom_payload = none ∧
    (JettonTransferNotificationMessage.new s a).query_id = 0 ∧
    (JettonTransferNotificationMessage.new s a).amount = a ∧
    (JettonTransferNotificationMessage.new s a).sender = s ∧
    (JettonTransferNotificationMessage.new s a).forward_payload = EMPTY_CELL ∧
    EMPTY_CELL.bits = [] ∧ EMPTY_CELL.refs = [] ∧
    (JettonTransferNotificationMessage.new s a).forward_payload_layout =
      .native :=
  ⟨rfl, rfl, rfl, rfl, rfl, rfl, rfl, rfl, rfl, rfl, rfl⟩

theorem notif_parseFields_layout {p : CellParser} {op : Nat}
    {m : JettonTransferNotificationMessage} {q : CellParser}
    (h : JettonTransferNotificationMessage.parseFields p = .ok ((op, m), q)) :
    m.forward_payload_layout = .native := by
  rw [JettonTransferNotificationMessage.parseFields] at h
  repeat' split at h
  all_goals try exact Except.noConfusion h
  injection h with h
  injection h with h1 h2
  injection h1 with h1a h1b
  rw [← h1b]

/-- **C9**: every message a transfer-notification parse returns carries
`forward_payload_layout = Native`, whatever flag bit or layout convention
the encoding used — the layout is not recoverable from the wire bits. -/
theorem C9_parse_layout_always_native :
    ∀ (c : Cell) (m : JettonTransferNotificationMessage),
      JettonTransferNotificationMessage.parse c = .ok m →
      m.forward_payload_layout = .native := by
  intro c m h
  rw [JettonTransferNotificationMessage.parse] at h
  split at h
  · exact Except.noConfusion h
  · split at h
    · exact Except.noConfusion h
    · split at h
      · exact Except.noConfusion h
      · injection h with h
        rw [← h]
        exact notif_parseFields_layout (by assumption)

set_option maxRecDepth 8000 in
/-- **C9** witness: even an encoding produced under the alternate `toRef`
layout parses back with the `Native` layout. -/
theorem C9_parse_layout_always_native_witness :
    sampleNotifToRef.build = .ok (notifRefCell sampleNotifToRef) ∧
    JettonTransferNotificationMessage.parse (notifRefCell sampleNotifToRef) =
      .ok ⟨0, 0, .null, EMPTY_CELL, .native⟩ ∧
    (⟨0, 0, .null, EMPTY_CELL, .native⟩ :
      JettonTransferNotificationMessage).forward_payload_layout = .native :=
  ⟨rfl, rfl,
   C9_parse_layout_always_native (notifRefCell sampleNotifToRef) _ rfl⟩

/-- **C10**: in both parsers the full-consumption check runs before the
opcode verification — on inputs with both a wrong opcode and trailing
data, parse reports the trailing-data error, never schema-mismatch. -/
theorem C10_trailing_before_opcode :
    (∀ (c : Cell) (op : Nat) (m : JettonBurnMessage) (p : CellParser),
      JettonBurnMessage.parseFields c.parser = .ok ((op, m), p) →
      op ≠ JETTON_BURN → ¬(p.bits = [] ∧ p.refs = []) →
      JettonBurnMessage.parse c = .error (.cellError .trailingData) ∧
        JettonBurnMessage.parse c ≠ .error .schemaMismatch) ∧
    (∀ (c : Cell) (op : Nat) (m : JettonTransferNotificationMessage)
        (p : CellParser),
      JettonTransferNotificationMessage.parseFields c.parser = .ok ((op, m), p) →
      op ≠ JETTON_TRANSFER_NOTIFICATION → ¬(p.bits = [] ∧ p.refs = []) →
      JettonTransferNotificationMessage.parse c =
          .error (.cellError .trailingData) ∧
        JettonTransferNotificationMessage.parse c ≠
          .error .schemaMismatch) := by
  constructor
  · intro c op m p hf hop hne
    have he : JettonBurnMessage.parse c = .error (.cellError .trailingData) := by
      rw [JettonBurnMessage.parse]
      simp [hf, ensure_empty, hne]
    refine ⟨he, ?_⟩
    rw [he]
    simp
  · intro c op m p hf hop hne
    have he : JettonTransferNotificationMessage.parse c =
        .error (.cellError .trailingData) := by
      rw [JettonTransferNotificationMessage.parse]
      simp [hf, ensure_empty, hne]
    refine ⟨he, ?_⟩
    rw [he]
    simp

/-- A burn-codec input carrying the transfer-notification opcode and one
trailing bit. -/
def wrongOpTrailingBurnInput : Cell :=
  ⟨natToBits 32 JETTON_TRANSFER_NOTIFICATION ++ (natToBits 64 0 ++
    (coinsBits 0 ++ (addrBits .null ++ (false :: [true])))), []⟩

/-- A notification-codec input carrying the burn opcode and one trailing
child reference. -/
def wrongOpTrailingNotifInput : Cell :=
  ⟨natToBits 32 JETTON_BURN ++ (natToBits 64 0 ++
    (coinsBits 0 ++ (addrBits .null ++ [true]))), [EMPTY_CELL, EMPTY_CELL]⟩

set_option maxRecDepth 8000 in
/-- **C10** witness: nodes carrying the other kind's opcode **and**
trailing data are reported as trailing data by both codecs. -/
theorem C10_trailing_before_opcode_witness :
    JettonBurnMessage.parse wrongOpTrailingBurnInput =
      .error (.cellError .trailingData) ∧
    JettonTransferNotificationMessage.parse wrongOpTrailingNotifInput =
      .error (.cellError .trailingData) :=
  ⟨(C10_trailing_before_opcode.1 wrongOpTrailingBurnInput
      JETTON_TRANSFER_NOTIFICATION
      ⟨0, 0, .null, none⟩ ⟨[true], []⟩ rfl (by decide) (by decide)).1,
   (C10_trailing_before_opcode.2 wrongOpTrailingNotifInput JETTON_BURN
      ⟨0, 0, .null, EMPTY_CELL, .native⟩ ⟨[], [EMPTY_CELL]⟩ rfl (by decide)
      (by decide)).1⟩

end TonCodec
